import Mathlib

/-
Verification of the agent orchestration core of the pythagoras repository:
the plan/execute/patch pipeline (PlanExecuteAgent), the GitHub-backed
memory log (GitHubMemoryManager) and the MCP tool session manager
(ToolsManager).  The TypeScript sources are shallowly embedded: each
method becomes an executable Lean function over explicit state, the
external collaborators (LLM completion, MCP transport, GitHub REST) are
oracle parameters, and the JavaScript built-in JSON.parse is modelled by an
executable JSON reader defined below.
-/

/-! ### A model of the JavaScript built-in JSON.parse -/

/-- Brace characters, referred to by code point throughout. -/
def lbraceChar : Char := Char.ofNat 123

/-- Closing brace character, by code point. -/
def rbraceChar : Char := Char.ofNat 125

/-- JSON value as produced by JSON.parse.  Numbers are stored exactly as a
decimal mantissa with a power-of-ten scale (value = mant / 10 ^ scale);
JavaScript would round to an IEEE double, but no verified claim depends on
the numeric value of a parsed number, only on the shape of the value. -/
inductive Json where
  | null : Json
  | bool : Bool → Json
  | num : Int → Nat → Json
  | str : String → Json
  | arr : List Json → Json
  | obj : List (String × Json) → Json

/-- Whitespace accepted between JSON tokens (RFC 8259: space, tab, LF, CR). -/
def jsonWsChar (c : Char) : Bool :=
  c == ' ' || c == '\t' || c == '\n' || c == '\r'

/-- Numeric value of a decimal digit character. -/
def digitVal (c : Char) : Nat := c.toNat - 48

/-- Decimal digits to the natural number they denote. -/
def digitsToNat (ds : List Char) : Nat :=
  ds.foldl (fun a c => 10 * a + digitVal c) 0

/-- Numeric value of a hexadecimal digit character, if it is one. -/
def hexVal (c : Char) : Option Nat :=
  if c.isDigit then some (digitVal c)
  else if 97 ≤ c.toNat ∧ c.toNat ≤ 102 then some (c.toNat - 87)
  else if 65 ≤ c.toNat ∧ c.toNat ≤ 70 then some (c.toNat - 55)
  else none

/-- Single-character JSON string escapes. -/
def escChar (c : Char) : Option Char :=
  if c == '\"' then some '\"'
  else if c == '\\' then some '\\'
  else if c == '/' then some '/'
  else if c == 'b' then some (Char.ofNat 8)
  else if c == 'f' then some (Char.ofNat 12)
  else if c == 'n' then some '\n'
  else if c == 'r' then some '\r'
  else if c == 't' then some '\t'
  else none

/-- Body of a JSON string literal (after the opening quote): returns the
decoded characters and the input after the closing quote.  Unescaped
control characters and invalid escapes are rejected, as JSON.parse does.
Code points from surrogate-pair escapes that are not valid Lean chars
degrade to the null character; no claim depends on such inputs. -/
def parseStrChars : Nat → List Char → Option (List Char × List Char)
  | 0, _ => none
  | _, [] => none
  | Nat.succ fuel, c :: rest =>
    if c == '\"' then some ([], rest)
    else if c == '\\' then
      match rest with
      | [] => none
      | e :: rest2 =>
        if e == 'u' then
          match rest2 with
          | h1 :: h2 :: h3 :: h4 :: rest3 =>
            match hexVal h1, hexVal h2, hexVal h3, hexVal h4 with
            | some a, some b, some c2, some d =>
              (parseStrChars fuel rest3).map
                (fun pr => (Char.ofNat (((a * 16 + b) * 16 + c2) * 16 + d) :: pr.1, pr.2))
            | _, _, _, _ => none
          | _ => none
        else
          match escChar e with
          | some ec => (parseStrChars fuel rest2).map (fun pr => (ec :: pr.1, pr.2))
          | none => none
    else if c.toNat < 32 then none
    else (parseStrChars fuel rest).map (fun pr => (c :: pr.1, pr.2))

/-- Combine sign, integer digits, fraction digits and exponent into the
mantissa/scale representation of the denoted decimal number. -/
def mkJsonNum (neg : Bool) (intDs fracDs : List Char) (expNeg : Bool) (expDs : List Char) : Json :=
  let mant0 : Nat := digitsToNat (intDs ++ fracDs)
  let mant : Int := if neg then -(mant0 : Int) else (mant0 : Int)
  let e : Nat := digitsToNat expDs
  if expNeg then
    Json.num mant (fracDs.length + e)
  else if fracDs.length ≤ e then
    Json.num (mant * ((10 : Int) ^ (e - fracDs.length))) 0
  else
    Json.num mant (fracDs.length - e)

/-- Optional exponent part of a JSON number. -/
def parseExpPart (neg : Bool) (intDs fracDs : List Char) (cs : List Char) : Option (Json × List Char) :=
  match cs with
  | c :: cs2 =>
    if c == 'e' || c == 'E' then
      match cs2 with
      | s :: cs3 =>
        if s == '+' then
          let sp := cs3.span Char.isDigit
          if sp.1.isEmpty then none else some (mkJsonNum neg intDs fracDs false sp.1, sp.2)
        else if s == '-' then
          let sp := cs3.span Char.isDigit
          if sp.1.isEmpty then none else some (mkJsonNum neg intDs fracDs true sp.1, sp.2)
        else
          let sp := cs2.span Char.isDigit
          if sp.1.isEmpty then none else some (mkJsonNum neg intDs fracDs false sp.1, sp.2)
      | [] => none
    else some (mkJsonNum neg intDs fracDs false [], cs)
  | [] => some (mkJsonNum neg intDs fracDs false [], [])

/-- Optional fraction part of a JSON number. -/
def parseFracPart (neg : Bool) (intDs : List Char) (cs : List Char) : Option (Json × List Char) :=
  match cs with
  | '.' :: cs2 =>
    let sp := cs2.span Char.isDigit
    if sp.1.isEmpty then none else parseExpPart neg intDs sp.1 sp.2
  | _ => parseExpPart neg intDs [] cs

/-- A JSON number literal: optional minus, integer part without leading
zeros, optional fraction and exponent. -/
def parseNumber (cs : List Char) : Option (Json × List Char) :=
  let st :=
    match cs with
    | c :: rest => if c == '-' then (true, rest) else (false, cs)
    | [] => (false, cs)
  let sp := st.2.span Char.isDigit
  if sp.1.isEmpty then none
  else if sp.1.length > 1 && sp.1.headD ' ' == '0' then none
  else parseFracPart st.1 sp.1 sp.2

mutual

/-- A JSON value, by recursive descent with explicit fuel.  Leading
whitespace is skipped; the remaining input is returned. -/
def parseVal : Nat → List Char → Option (Json × List Char)
  | 0, _ => none
  | Nat.succ fuel, cs =>
    match cs.dropWhile jsonWsChar with
    | [] => none
    | c :: rest =>
      if c == 'n' then
        match rest with
        | 'u' :: 'l' :: 'l' :: rest2 => some (Json.null, rest2)
        | _ => none
      else if c == 't' then
        match rest with
        | 'r' :: 'u' :: 'e' :: rest2 => some (Json.bool true, rest2)
        | _ => none
      else if c == 'f' then
        match rest with
        | 'a' :: 'l' :: 's' :: 'e' :: rest2 => some (Json.bool false, rest2)
        | _ => none
      else if c == '\"' then
        (parseStrChars (rest.length + 1) rest).map (fun pr => (Json.str (String.mk pr.1), pr.2))
      else if c == '[' then
        (parseArrItems fuel (rest.dropWhile jsonWsChar) true).map (fun pr => (Json.arr pr.1, pr.2))
      else if c == lbraceChar then
        (parseObjItems fuel (rest.dropWhile jsonWsChar) true).map (fun pr => (Json.obj pr.1, pr.2))
      else
        parseNumber (c :: rest)

/-- Items of a JSON array after the opening bracket (whitespace already
skipped); `first` is true before the first element so that only the empty
array may close immediately. -/
def parseArrItems : Nat → List Char → Bool → Option (List Json × List Char)
  | 0, _, _ => none
  | Nat.succ fuel, cs, first =>
    match cs with
    | ']' :: rest => if first then some ([], rest) else none
    | _ =>
      match parseVal fuel cs with
      | none => none
      | some (v, cs2) =>
        match cs2.dropWhile jsonWsChar with
        | ',' :: cs3 =>
          (parseArrItems fuel (cs3.dropWhile jsonWsChar) false).map (fun pr => (v :: pr.1, pr.2))
        | ']' :: cs3 => some ([v], cs3)
        | _ => none

/-- Members of a JSON object after the opening brace (whitespace already
skipped). -/
def parseObjItems : Nat → List Char → Bool → Option (List (String × Json) × List Char)
  | 0, _, _ => none
  | Nat.succ fuel, cs, first =>
    match cs with
    | [] => none
    | c :: rest =>
      if c == rbraceChar then
        if first then some ([], rest) else none
      else if c == '\"' then
        match parseStrChars (rest.length + 1) rest with
        | none => none
        | some (keyChars, cs2) =>
          match cs2.dropWhile jsonWsChar with
          | ':' :: cs3 =>
            match parseVal fuel cs3 with
            | none => none
            | some (v, cs4) =>
              match cs4.dropWhile jsonWsChar with
              | ',' :: cs5 =>
                (parseObjItems fuel (cs5.dropWhile jsonWsChar) false).map
                  (fun pr => ((String.mk keyChars, v) :: pr.1, pr.2))
              | c2 :: cs5 =>
                if c2 == rbraceChar then some ([(String.mk keyChars, v)], cs5) else none
              | [] => none
          | _ => none
      else none

end

/-- Model of JSON.parse: parse one value and require only trailing
whitespace after it; `none` models a thrown SyntaxError. -/
def jsonParse (s : String) : Option Json :=
  match parseVal (3 * s.length + 8) s.data with
  | some (v, rest) => if (rest.dropWhile jsonWsChar).isEmpty then some v else none
  | none => none

/-- Property lookup on a parsed JSON value, as JavaScript member access on
the object produced by JSON.parse: `none` models `undefined` (missing key
or access on a non-object primitive).  Duplicate keys keep the last
occurrence, as JSON.parse does. -/
def getField (j : Json) (key : String) : Option Json :=
  match j with
  | Json.obj fields => ((fields.filter (fun kv => kv.1 == key)).getLast?).map (fun kv => kv.2)
  | _ => none

/-! ### The code-fence extraction regex of PlanExecuteAgent.parsePlan

`parsePlan` first runs `content.match(...)` with a regex matching three
backticks, an optional `json` tag, whitespace, a greedy brace-delimited
group, whitespace and three closing backticks, and parses the captured
group if the regex matched, the whole content otherwise. -/

/-- The three-backtick fence token. -/
def backtick3 : List Char := [Char.ofNat 96, Char.ofNat 96, Char.ofNat 96]

/-- The optional `json` tag after the opening fence. -/
def jsonWord : List Char := ['j', 's', 'o', 'n']

/-- Whitespace class of the JavaScript regex escape used in the fence
pattern (the rarer Unicode space characters are not modelled; no claim
depends on them). -/
def regexWsChar (c : Char) : Bool :=
  c == ' ' || c == '\t' || c == '\n' || c == '\r' || c == Char.ofNat 11 ||
    c == Char.ofNat 12 || c == Char.ofNat 160

/-- Drop an expected literal token from the front of the input. -/
def stripPre : List Char → List Char → Option (List Char)
  | [], cs => some cs
  | _ :: _, [] => none
  | p :: ps, c :: cs => if p == c then stripPre ps cs else none

/-- After the candidate closing brace: only whitespace may separate it from
the closing fence. -/
def fenceTailOk (tail : List Char) : Bool :=
  match stripPre backtick3 (tail.dropWhile regexWsChar) with
  | some _ => true
  | none => false

/-- Position `j` closes the greedy group: it holds a closing brace followed
by whitespace and the closing fence. -/
def validCloseAt (cs : List Char) (j : Nat) : Bool :=
  match cs[j]? with
  | some c => c == rbraceChar && fenceTailOk (cs.drop (j + 1))
  | none => false

/-- Greedy capture of the brace group: the longest candidate is taken
first, as the backtracking regex engine would. -/
def greedyCapture (cs : List Char) : Option (List Char) :=
  match ((List.range cs.length).reverse).find? (validCloseAt cs) with
  | some j => some (cs.take (j + 1))
  | none => none

/-- Try to match the fence regex at the current start position. -/
def tryFenceAt (cs : List Char) : Option (List Char) :=
  match stripPre backtick3 cs with
  | none => none
  | some afterTicks =>
    let afterJson :=
      match stripPre jsonWord afterTicks with
      | some r => r
      | none => afterTicks
    match afterJson.dropWhile regexWsChar with
    | c :: rest => if c == lbraceChar then greedyCapture (c :: rest) else none
    | [] => none

/-- Leftmost match of the fence regex: try every start position from the
left, as the regex engine does. -/
def findFence : List Char → Option (List Char)
  | [] => none
  | c :: rest =>
    match tryFenceAt (c :: rest) with
    | some cap => some cap
    | none => findFence rest

/-- The string `parsePlan` hands to JSON.parse: the captured fenced group
if the fence regex matched, the whole content otherwise. -/
def extractFenced (s : String) : String :=
  match findFence s.data with
  | some cap => String.mk cap
  | none => s

example : jsonParse "\x7b\x7d" = some (Json.obj []) := rfl

example : jsonParse "5" = some (Json.num 5 0) := rfl

example : jsonParse "not json" = none := rfl

example : jsonParse "null" = some Json.null := rfl

example : jsonParse " [1, true, \"a\"] " = some (Json.arr [Json.num 1 0, Json.bool true, Json.str "a"]) := rfl

example : jsonParse "\x7b \"a\": 1, \"b\": [2] \x7d" = some (Json.obj [("a", Json.num 1 0), ("b", Json.arr [Json.num 2 0])]) := rfl

example : jsonParse "-1.25" = some (Json.num (-125) 2) := rfl

example : jsonParse "01" = none := rfl

example : jsonParse "[1,]" = none := rfl

example : extractFenced "\x7b\x7d" = "\x7b\x7d" := rfl

/-! ### Data model of PlanExecuteAgent (src/unnamed/part_005) -/

/-- One step of an execution plan (interface PlanStep). -/
structure PlanStep where
  step : Int
  action : String
  reasoning : String
  tool : Option String := none
  completed : Bool := false
deriving DecidableEq

/-- The complete execution plan (interface ExecutionPlan). -/
structure ExecutionPlan where
  objective : String
  steps : List PlanStep
  reasoning : String
deriving DecidableEq

/-- Outcome of one executed step (interface StepResult). -/
structure StepResult where
  step : Int
  success : Bool
  output : String
  error : Option String := none
deriving DecidableEq

/-- Role of a LangChain chat message (HumanMessage vs AIMessage,
discriminated by `_getType()` in the source). -/
inductive MsgRole where
  | human : MsgRole
  | ai : MsgRole
deriving DecidableEq

/-- A chat message held by the memory manager. -/
structure BaseMessage where
  role : MsgRole
  content : String
deriving DecidableEq

/-- Build a HumanMessage. -/
def humanMessage (content : String) : BaseMessage := { role := MsgRole.human, content := content }

/-- Build an AIMessage. -/
def aiMessage (content : String) : BaseMessage := { role := MsgRole.ai, content := content }

/-- In-memory state of GitHubMemoryManager: the `messages` array.  The
GitHub comment mirror written by addMessage is an out-of-scope external
collaborator and is not part of this state. -/
structure MemoryState where
  messages : List BaseMessage
deriving DecidableEq

/-- GitHubMemoryManager.addMessage: push onto the in-memory array (the
octokit comment post is external). -/
def addMessage (m : BaseMessage) (s : MemoryState) : MemoryState :=
  { messages := s.messages ++ [m] }

/-- GitHubMemoryManager.addAIMessage. -/
def addAIMessage (content : String) (s : MemoryState) : MemoryState :=
  addMessage (aiMessage content) s

/-! ### PlanExecuteAgent.parsePlan and createPlan -/

/-- The degenerate plan returned by parsePlan when JSON.parse throws (or
member access on a parsed null throws) inside its try block. -/
def fallbackPlan : ExecutionPlan :=
  { objective := "Failed to parse objective"
  , reasoning := "Error parsing plan from LLM response"
  , steps := [{ step := 1
              , action := "Manual intervention required"
              , reasoning := "Could not parse automated plan"
              , tool := none
              , completed := false }] }

/-- JavaScript `x || dflt` for a string-valued field: absent, null and
other falsy values give the default.  A truthy non-string value would be
kept by the untyped source; this typed model coerces it to the default,
and no verified claim depends on that case. -/
def jsFieldStr (o : Option Json) (dflt : String) : String :=
  match o with
  | some (Json.str s) => if s = "" then dflt else s
  | _ => dflt

/-- The unchecked structural cast of one element of `parsed.steps` to
PlanStep.  Absent or differently-typed fields take defaults here; the
untyped source would carry them through as-is.  No verified claim depends
on these defaults, only on the number of steps. -/
def coercePlanStep (j : Json) : PlanStep :=
  { step :=
      match getField j "step" with
      | some (Json.num n scale) => n / ((10 : Int) ^ scale)
      | _ => 0
  , action :=
      match getField j "action" with
      | some (Json.str s) => s
      | _ => ""
  , reasoning :=
      match getField j "reasoning" with
      | some (Json.str s) => s
      | _ => ""
  , tool :=
      match getField j "tool" with
      | some (Json.str s) => some s
      | _ => none
  , completed :=
      match getField j "completed" with
      | some (Json.bool b) => b
      | _ => false }

/-- JavaScript `parsed.steps || []`: an array maps elementwise through the
unchecked cast, falsy values (absent, null, false, 0, empty string) give
the empty list.  A truthy non-array would be carried through raw by the
source and is modelled as the empty list; no verified claim depends on
that case. -/
def jsStepsField (o : Option Json) : List PlanStep :=
  match o with
  | some (Json.arr xs) => xs.map coercePlanStep
  | _ => []

/-- PlanExecuteAgent.parsePlan: strip an enclosing code fence, JSON.parse,
build the plan from the fields of the object; any exception inside the try
block (a parse failure, or the member access on a parsed null) yields the
fallback plan. -/
def parsePlan (content : String) : ExecutionPlan :=
  match jsonParse (extractFenced content) with
  | none => fallbackPlan
  | some Json.null => fallbackPlan
  | some parsed =>
    { objective := jsFieldStr (getField parsed "objective") "Unknown objective"
    , reasoning := jsFieldStr (getField parsed "reasoning") ""
    , steps := jsStepsField (getField parsed "steps") }

/-- The plan summary createPlan appends to the memory log. -/
def renderPlanMessage (plan : ExecutionPlan) : String :=
  "📋 **Execution Plan Created**\n\n**Objective:** " ++ plan.objective ++
    "\n\n**Reasoning:** " ++ plan.reasoning ++ "\n\n**Steps:**\n" ++
    String.intercalate "\n" (plan.steps.map (fun s => toString s.step ++ ". " ++ s.action))

/-- PlanExecuteAgent.createPlan, given the completion text the model
returned for the planning prompt (the prompt assembly and the model call
are external): parse the plan and append its summary to the memory log. -/
def createPlan (content : String) (mem : MemoryState) : ExecutionPlan × MemoryState :=
  let plan := parsePlan content
  (plan, addAIMessage (renderPlanMessage plan) mem)

/-! ### PlanExecuteAgent.executeStep / executePlan -/

/-- PlanExecuteAgent.executeStep, with the per-step model call as an
oracle: `Except.error` is an exception thrown by the awaited chain
invocation, which propagates out of executeStep; a response that returns
is always recorded as success with the response text as output. -/
def executeStep (model : PlanStep → Except String String) (step : PlanStep) :
    Except String StepResult :=
  match model step with
  | Except.error e => Except.error e
  | Except.ok output =>
    Except.ok { step := step.step, success := true, output := output, error := none }

/-- The StepResult executePlan records for one step: the result of executeStep
when the model call returns, the catch-block failure record when it
throws. -/
def stepOutcome (model : PlanStep → Except String String) (step : PlanStep) : StepResult :=
  match model step with
  | Except.error e => { step := step.step, success := false, output := "", error := some e }
  | Except.ok output => { step := step.step, success := true, output := output, error := none }

/-- The status entry executePlan appends to memory after a step that
completed (success or recorded failure from executeStep). -/
def statusMessage (result : StepResult) (step : PlanStep) : String :=
  (if result.success then "✅" else "❌") ++ " **Step " ++ toString step.step ++ ":** " ++
    step.action ++ "\n\n" ++ result.output

/-- The status entry executePlan appends after a step whose execution
threw. -/
def failMessage (step : PlanStep) (e : String) : String :=
  "❌ **Step " ++ toString step.step ++ " Failed:** " ++ e

/-- The per-step loop of PlanExecuteAgent.executePlan: each step runs in a
try block; an exception is caught at the step boundary, recorded as a
failed StepResult, and the loop continues with the remaining steps. -/
def runSteps (model : PlanStep → Except String String) :
    List PlanStep → MemoryState → List StepResult × MemoryState
  | [], mem => ([], mem)
  | step :: rest, mem =>
    match executeStep model step with
    | Except.ok result =>
      let next := runSteps model rest (addAIMessage (statusMessage result step) mem)
      (result :: next.1, next.2)
    | Except.error e =>
      let result : StepResult := { step := step.step, success := false, output := "", error := some e }
      let next := runSteps model rest (addAIMessage (failMessage step e) mem)
      (result :: next.1, next.2)

/-- PlanExecuteAgent.generateSummary: a pure rendering of the results. -/
def generateSummary (plan : ExecutionPlan) (results : List StepResult) : String :=
  let successCount := (results.filter (fun r => r.success)).length
  let header := "## Execution Summary\n\n**Objective:** " ++ plan.objective ++
    "\n\n**Completed:** " ++ toString successCount ++ "/" ++ toString results.length ++
    " steps\n\n### Results\n\n"
  let lines := results.map (fun r =>
    (if r.success then "✅" else "❌") ++ " **Step " ++ toString r.step ++ ":** " ++
      (match plan.steps.find? (fun s => s.step == r.step) with
       | some s => if s.action = "" then "Unknown" else s.action
       | none => "Unknown") ++ "\n" ++
      (match r.error with
       | some e => "   Error: " ++ e ++ "\n"
       | none => "") ++ "\n")
  header ++ String.join lines

/-- PlanExecuteAgent.generatePatches, given the completion text the model
returned for the patch prompt: `JSON.parse(content) as FilePatch[]` inside
a try block.  A parse failure returns the empty array; a parsed null
throws on the subsequent length access inside the same try block, also
returning the empty array; any other parsed value is returned verbatim by
the unchecked cast.  The function is total: it never raises. -/
def generatePatches (content : String) : Json :=
  match jsonParse content with
  | none => Json.arr []
  | some Json.null => Json.arr []
  | some v => v

/-- The final artifact of executePlan (interface ExecutionResult).  The
patches field carries the raw value of the unchecked cast. -/
structure ExecutionResult where
  plan : ExecutionPlan
  results : List StepResult
  summary : String
  patches : Json

/-- PlanExecuteAgent.executePlan: run every step, then build the summary
and the patches (the patch-generation model response is an oracle of the
recorded results, the prompt assembly being external). -/
def executePlan (model : PlanStep → Except String String)
    (patchModel : List StepResult → String) (plan : ExecutionPlan) (mem : MemoryState) :
    ExecutionResult × MemoryState :=
  let stepped := runSteps model plan.steps mem
  ({ plan := plan
   , results := stepped.1
   , summary := generateSummary plan stepped.1
   , patches := generatePatches (patchModel stepped.1) }, stepped.2)

example : (parsePlan "\x7b\x7d").steps = [] := rfl

example : parsePlan "nonsense" = fallbackPlan := rfl

example : parsePlan "null" = fallbackPlan := rfl

example : (parsePlan "\x60\x60\x60json\n\x7b \"steps\": [\x7b \"step\": 1, \"action\": \"a\", \"reasoning\": \"r\", \"completed\": false \x7d] \x7d\n\x60\x60\x60").steps.length = 1 := rfl

/-! ### GitHubMemoryManager (packages/core/src/memory/github-memory.ts) -/

/-- The anchor issue as fetched from the external log platform. -/
structure IssueData where
  title : String
  body : Option String := none
deriving DecidableEq

/-- A follow-up comment as fetched from the external log platform:
an optional author type (`comment.user?.type`) and an optional body. -/
structure CommentData where
  userType : Option String := none
  body : Option String := none
deriving DecidableEq

/-- The bot-comment heuristic of loadMessages: the author is a Bot, or the
body starts with a recognized agent-signature token. -/
def isBotComment (c : CommentData) : Bool :=
  c.userType == some "Bot" || (c.body.getD "").startsWith "[Pythagoras]" ||
    (c.body.getD "").startsWith "🤖"

/-- Classification of one fetched comment as a chat message. -/
def classifyComment (c : CommentData) : BaseMessage :=
  if isBotComment c then aiMessage (c.body.getD "") else humanMessage (c.body.getD "")

/-- The initial user message loadMessages builds from the anchor issue;
the author of the issue is never consulted. -/
def anchorMessage (issue : IssueData) : BaseMessage :=
  humanMessage ("Issue: " ++ issue.title ++ "\n\n" ++ issue.body.getD "")

/-- GitHubMemoryManager.loadMessages: push the anchor issue as a
HumanMessage, then push every fetched comment in order, classified by the
bot heuristic.  Note that it pushes onto whatever is already in the
array — it does not clear it. -/
def loadMessages (issue : IssueData) (comments : List CommentData) (s : MemoryState) :
    MemoryState :=
  { messages := s.messages ++ anchorMessage issue :: comments.map classifyComment }

/-- GitHubMemoryManager.getMessages: load lazily if and only if the
in-memory array is empty, then return it (paired with the state after the
call). -/
def getMessages (issue : IssueData) (comments : List CommentData) (s : MemoryState) :
    List BaseMessage × MemoryState :=
  if s.messages.length = 0 then
    let s2 := loadMessages issue comments s
    (s2.messages, s2)
  else (s.messages, s)

/-! ### ToolsManager (src/tools/tools-manager.ts)

The file holds two revisions of the class.  The one embedded here is the
revision that implements the documented environment-variable substitution
(resolveEnvValue) and whose initialize rethrows a connection failure; the
other revision predates the substitution feature and copies descriptor
values into the environment verbatim. -/

/-- Input-shape descriptor of a discovered tool (names only; the schema
payload is opaque to the manager). -/
structure ToolSchema where
  schemaType : String := "object"
  propertyNames : List String := []
  required : List String := []
deriving DecidableEq

/-- A tool advertised by a connected MCP server (interface ToolInfo). -/
structure ToolInfo where
  name : String
  description : Option String := none
  inputSchema : ToolSchema := {}
deriving DecidableEq

/-- Connection descriptor for one MCP server (MCPServerConfig): a launch
command with arguments and an environment map; `config.env || {}` makes an
absent map the empty list. -/
structure MCPServerConfig where
  command : String
  args : List String := []
  env : List (String × String) := []
deriving DecidableEq

/-- Lookup in the process environment (process.env[name]). -/
def lookupEnv (procEnv : List (String × String)) (nm : String) : Option String :=
  (procEnv.find? (fun kv => kv.1 == nm)).map (fun kv => kv.2)

/-- Anchored pattern of ToolsManager.resolveEnvValue: a value matches
exactly when it is the dollar-brace `env:NAME` close-brace form with NAME
nonempty and brace-free; the matched NAME is returned. -/
def matchEnvPattern (value : String) : Option String :=
  match stripPre ['$', lbraceChar, 'e', 'n', 'v', ':'] value.data with
  | none => none
  | some rest =>
    match rest.getLast? with
    | some c =>
      if c == rbraceChar then
        let nm := rest.dropLast
        if nm.isEmpty || nm.contains rbraceChar then none else some (String.mk nm)
      else none
    | none => none

/-- ToolsManager.resolveEnvValue: a value of the substitution form
resolves to the named process environment variable (undefined when it is
not set); any other value is returned literally. -/
def resolveEnvValue (procEnv : List (String × String)) (value : String) : Option String :=
  match matchEnvPattern value with
  | some nm => lookupEnv procEnv nm
  | none => some value

/-- The environment-resolution loop of ToolsManager.connectToServer: the
first entry whose value cannot be resolved throws the named configuration
error; otherwise the resolved map is produced. -/
def resolveEnvVars (procEnv : List (String × String)) :
    List (String × String) → Except String (List (String × String))
  | [] => Except.ok []
  | kv :: rest =>
    match resolveEnvValue procEnv kv.2 with
    | none => Except.error ("Environment variable " ++ kv.1 ++ " could not be resolved")
    | some rv =>
      match resolveEnvVars procEnv rest with
      | Except.error e => Except.error e
      | Except.ok tail => Except.ok ((kv.1, rv) :: tail)

/-- ToolsManager.connectToServer: resolve the environment of the descriptor
first; only then is the transport created, the client connected and the
tool catalog discovered — all modelled by the `establish` oracle, which is
reached only when every variable resolved. -/
def connectToServer (procEnv : List (String × String))
    (establish : String → MCPServerConfig → List (String × String) → List ToolInfo)
    (serverName : String) (cfg : MCPServerConfig) : Except String (List ToolInfo) :=
  match resolveEnvVars procEnv cfg.env with
  | Except.error e => Except.error e
  | Except.ok envVars => Except.ok (establish serverName cfg envVars)

/-- The connection state of the manager: which server names hold a live client,
and the cached tool catalog per server, both in registration order. -/
structure ToolsState where
  clients : List String := []
  tools : List (String × List ToolInfo) := []
deriving DecidableEq

/-- The per-descriptor loop of ToolsManager.initialize, in the embedded
revision: a connection failure is logged and rethrown, aborting the loop. -/
def initServersGo (procEnv : List (String × String))
    (establish : String → MCPServerConfig → List (String × String) → List ToolInfo) :
    List (String × MCPServerConfig) → ToolsState → Except String ToolsState
  | [], st => Except.ok st
  | entry :: rest, st =>
    match connectToServer procEnv establish entry.1 entry.2 with
    | Except.error e => Except.error e
    | Except.ok toolList =>
      initServersGo procEnv establish rest
        { clients := st.clients ++ [entry.1], tools := st.tools ++ [(entry.1, toolList)] }

/-- ToolsManager.initialize over a descriptor map (iteration order of a JS
Map is insertion order). -/
def initServers (procEnv : List (String × String))
    (establish : String → MCPServerConfig → List (String × String) → List ToolInfo)
    (servers : List (String × MCPServerConfig)) : Except String ToolsState :=
  initServersGo procEnv establish servers { clients := [], tools := [] }

/-- The scan of ToolsManager.callTool over the cached catalogs: the first
server (in registration order) advertising the name is chosen; a missing
client for that server throws; a name advertised by no server throws the
tool-not-found error.  The protocol call itself is the `call` oracle. -/
def callToolGo (clients : List String) (call : String → String → Json → Json)
    (toolName : String) (args : Json) : List (String × List ToolInfo) → Except String Json
  | [] => Except.error ("Tool not found: " ++ toolName)
  | entry :: rest =>
    match entry.2.find? (fun t => t.name == toolName) with
    | some _ =>
      if clients.contains entry.1 then Except.ok (call entry.1 toolName args)
      else Except.error ("Client not found for server: " ++ entry.1)
    | none => callToolGo clients call toolName args rest

/-- ToolsManager.callTool on the state of the manager. -/
def callTool (st : ToolsState) (call : String → String → Json → Json)
    (toolName : String) (args : Json) : Except String Json :=
  callToolGo st.clients call toolName args st.tools

example : matchEnvPattern "$\x7benv:GITHUB_TOKEN\x7d" = some "GITHUB_TOKEN" := rfl

example : matchEnvPattern "plain-value" = none := rfl

example : matchEnvPattern "$\x7benv:\x7d" = none := rfl

example : resolveEnvValue [("A", "1")] "$\x7benv:B\x7d" = none := rfl

/-! ### Concrete fixtures used by witnesses and counterexamples -/

/-- A two-step demo plan, first step. -/
def demoStepA : PlanStep :=
  { step := 1, action := "first", reasoning := "why first", tool := none, completed := false }

/-- A two-step demo plan, second step. -/
def demoStepB : PlanStep :=
  { step := 2, action := "second", reasoning := "why second", tool := none, completed := false }

/-- A two-step demo plan. -/
def demoPlan : ExecutionPlan :=
  { objective := "demo objective", steps := [demoStepA, demoStepB], reasoning := "demo" }

/-- A model oracle that throws on the first step and answers the second. -/
def demoFailModel : PlanStep → Except String String :=
  fun s => if s.step = 1 then Except.error "boom" else Except.ok "done"

/-! ### Lemmas about the executor loop -/

/-- The results list of the step loop is exactly the per-step outcome of
every step, in step order (the memory appends do not disturb it). -/
theorem runSteps_results (model : PlanStep → Except String String)
    (steps : List PlanStep) (mem : MemoryState) :
    (runSteps model steps mem).1 = steps.map (stepOutcome model) := by
  induction steps generalizing mem with
  | nil => rfl
  | cons step rest ih =>
    cases h : model step with
    | ok output => simp [runSteps, executeStep, stepOutcome, h, ih]
    | error e => simp [runSteps, executeStep, stepOutcome, h, ih]

/-- The recorded outcome of a step always carries the index of that step. -/
theorem stepOutcome_step (model : PlanStep → Except String String) (s : PlanStep) :
    (stepOutcome model s).step = s.step := by
  cases h : model s <;> simp [stepOutcome, h]

/-- The results field of executePlan is the results list of the step loop. -/
theorem executePlan_results (model : PlanStep → Except String String)
    (patchModel : List StepResult → String) (plan : ExecutionPlan) (mem : MemoryState) :
    (executePlan model patchModel plan mem).1.results = plan.steps.map (stepOutcome model) := by
  simp [executePlan, runSteps_results]

/-- C3 (confirmed): every executed plan yields exactly one StepResult per
PlanStep, in step order: the result list has the same length as the step
list and the result at every position carries the step index of the plan
step at that position. -/
theorem executePlan_one_result_per_step (model : PlanStep → Except String String)
    (patchModel : List StepResult → String) (plan : ExecutionPlan) (mem : MemoryState) :
    ((executePlan model patchModel plan mem).1.results).length = plan.steps.length ∧
    ∀ i : Nat, (((executePlan model patchModel plan mem).1.results)[i]?).map StepResult.step =
      (plan.steps[i]?).map PlanStep.step := by
  have hres := executePlan_results model patchModel plan mem
  constructor
  · rw [hres]; simp
  · intro i
    rw [hres, List.getElem?_map]
    cases h : plan.steps[i]? with
    | none => simp [h]
    | some s => simp [h, stepOutcome_step]

/-- C2 (confirmed): when the model call of step k throws, executePlan
records the catch-block failure result for step k, the exception does not
escape (executePlan is total and still returns a full result list), and
every step — including those after k — still gets its own recorded
outcome, so all N StepResults are produced. -/
theorem executePlan_step_failure_isolated (model : PlanStep → Except String String)
    (patchModel : List StepResult → String) (plan : ExecutionPlan) (mem : MemoryState)
    (k : Nat) (stepK : PlanStep) (e : String)
    (hstep : plan.steps[k]? = some stepK) (hfail : model stepK = Except.error e) :
    ((executePlan model patchModel plan mem).1.results).length = plan.steps.length ∧
    ((executePlan model patchModel plan mem).1.results)[k]? =
      some { step := stepK.step, success := false, output := "", error := some e } ∧
    ∀ i : Nat, ∀ s : PlanStep, plan.steps[i]? = some s →
      ((executePlan model patchModel plan mem).1.results)[i]? = some (stepOutcome model s) := by
  have hres := executePlan_results model patchModel plan mem
  refine ⟨by rw [hres]; simp, ?_, ?_⟩
  · rw [hres, List.getElem?_map, hstep]
    simp [stepOutcome, hfail]
  · intro i s hs
    rw [hres, List.getElem?_map, hs]
    rfl

/-- Witness for C2: a two-step plan in which the model call of the first step throws
still produces both StepResults, the first being the failure record. -/
theorem executePlan_step_failure_isolated_witness :
    demoPlan.steps[0]? = some demoStepA ∧ demoFailModel demoStepA = Except.error "boom" ∧
    (((executePlan demoFailModel (fun _ => "") demoPlan { messages := [] }).1.results).length =
        demoPlan.steps.length ∧
      ((executePlan demoFailModel (fun _ => "") demoPlan { messages := [] }).1.results)[0]? =
        some { step := demoStepA.step, success := false, output := "", error := some "boom" } ∧
      ∀ i : Nat, ∀ s : PlanStep, demoPlan.steps[i]? = some s →
        ((executePlan demoFailModel (fun _ => "") demoPlan { messages := [] }).1.results)[i]? =
          some (stepOutcome demoFailModel s)) :=
  ⟨rfl, rfl,
    executePlan_step_failure_isolated demoFailModel (fun _ => "") demoPlan { messages := [] }
      0 demoStepA "boom" rfl rfl⟩

/-- C10 (confirmed): a returned model response is always recorded as a
success with the response text as output — executeStep never classifies a
returned response as failed — so every recorded failure comes from a
thrown exception and carries the catch-block record. -/
theorem stepFailure_only_from_exception (model : PlanStep → Except String String) :
    (∀ step output, model step = Except.ok output →
      executeStep model step =
        Except.ok { step := step.step, success := true, output := output, error := none }) ∧
    (∀ step : PlanStep, (stepOutcome model step).success = false ↔
      ∃ e, model step = Except.error e) ∧
    (∀ (patchModel : List StepResult → String) (plan : ExecutionPlan) (mem : MemoryState)
        (i : Nat) (r : StepResult),
      ((executePlan model patchModel plan mem).1.results)[i]? = some r →
      r.success = false →
      ∃ s e, plan.steps[i]? = some s ∧ model s = Except.error e ∧
        r = { step := s.step, success := false, output := "", error := some e }) := by
  refine ⟨?_, ?_, ?_⟩
  · intro step output h
    simp [executeStep, h]
  · intro step
    cases h : model step <;> simp [stepOutcome, h]
  · intro patchModel plan mem i r hr hfalse
    rw [executePlan_results, List.getElem?_map] at hr
    obtain ⟨s, hs, hout⟩ := Option.map_eq_some'.mp hr
    cases h : model s with
    | ok output =>
      rw [← hout] at hfalse
      simp [stepOutcome, h] at hfalse
    | error e =>
      refine ⟨s, e, hs, h, ?_⟩
      rw [← hout]
      simp [stepOutcome, h]

/-- Witness for C10: a returning model response is recorded as success;
the recorded failure of the failing demo step is traced back to its thrown
exception. -/
theorem stepFailure_only_from_exception_witness :
    executeStep (fun _ => Except.ok "all good") demoStepA =
      Except.ok { step := demoStepA.step, success := true, output := "all good", error := none } ∧
    (∃ s e, demoPlan.steps[0]? = some s ∧ demoFailModel s = Except.error e ∧
      ({ step := 1, success := false, output := "", error := some "boom" } : StepResult) =
        { step := s.step, success := false, output := "", error := some e }) :=
  ⟨(stepFailure_only_from_exception (fun _ => Except.ok "all good")).1 demoStepA "all good" rfl,
    (stepFailure_only_from_exception demoFailModel).2.2 (fun _ => "") demoPlan { messages := [] }
      0 { step := 1, success := false, output := "", error := some "boom" } rfl rfl⟩

/-- C1 counterexample: the model response consisting of the two-character
JSON object text parses successfully, `parsed.steps` is absent, and
`parsed.steps || []` makes the returned plan have zero steps — so not
every model response yields a plan with at least one step. -/
theorem createPlan_zero_steps_cex :
    (createPlan "\x7b\x7d" { messages := [] }).1.steps = [] ∧
    ¬ (1 ≤ ((createPlan "\x7b\x7d" { messages := [] }).1.steps).length) := by
  refine ⟨rfl, ?_⟩
  decide

/-- C1 (corrected): a model response that fails to parse as JSON never
causes createPlan to raise — parsePlan catches the parse error and
createPlan returns the one-step degenerate manual-intervention plan, which
has at least one step.  (The original claim fails for responses that parse
as JSON without a nonempty steps array, see the counterexample.) -/
theorem createPlan_parse_failure_fallback (content : String) (mem : MemoryState)
    (h : jsonParse (extractFenced content) = none) :
    (createPlan content mem).1 = fallbackPlan ∧
    1 ≤ ((createPlan content mem).1.steps).length := by
  have hp : parsePlan content = fallbackPlan := by simp [parsePlan, h]
  exact ⟨by simp [createPlan, hp], by simp [createPlan, hp, fallbackPlan]⟩

/-- Witness for the amended C1 theorem at a concrete unparsable response. -/
theorem createPlan_parse_failure_fallback_witness :
    jsonParse (extractFenced "not json") = none ∧
    ((createPlan "not json" { messages := [] }).1 = fallbackPlan ∧
      1 ≤ ((createPlan "not json" { messages := [] }).1.steps).length) :=
  ⟨rfl, createPlan_parse_failure_fallback "not json" { messages := [] } rfl⟩

/-- C4 counterexample: the response text consisting of the single digit
five parses as the JSON number 5, which is not an array of patches, yet
generatePatches returns it verbatim through the unchecked cast instead of
the empty list. -/
theorem generatePatches_passthrough_cex :
    jsonParse "5" = some (Json.num 5 0) ∧
    generatePatches "5" = Json.num 5 0 ∧
    generatePatches "5" ≠ Json.arr [] :=
  ⟨rfl, rfl, fun h => Json.noConfusion (show Json.num 5 0 = Json.arr [] from h)⟩

/-- C4 (corrected): a model response whose text does not parse as JSON
makes generatePatches return the empty array without raising; a response
that parses to any non-null JSON value is returned verbatim by the
unchecked cast, even when it is not an array of patches. -/
theorem generatePatches_parse_failure_empty :
    (∀ content : String, jsonParse content = none → generatePatches content = Json.arr []) ∧
    (∀ (content : String) (v : Json), jsonParse content = some v → v ≠ Json.null →
      generatePatches content = v) := by
  constructor
  · intro c h
    simp [generatePatches, h]
  · intro c v h hv
    cases v with
    | null => exact absurd rfl hv
    | bool b => simp [generatePatches, h]
    | num n d => simp [generatePatches, h]
    | str s => simp [generatePatches, h]
    | arr xs => simp [generatePatches, h]
    | obj fs => simp [generatePatches, h]

/-- Witness for the amended C4 theorem: an unparsable response yields the
empty array; the parsable non-array response is passed through. -/
theorem generatePatches_parse_failure_empty_witness :
    (jsonParse "not json" = none ∧ generatePatches "not json" = Json.arr []) ∧
    (jsonParse "5" = some (Json.num 5 0) ∧ generatePatches "5" = Json.num 5 0) :=
  ⟨⟨rfl, generatePatches_parse_failure_empty.1 "not json" rfl⟩,
    ⟨rfl, generatePatches_parse_failure_empty.2 "5" (Json.num 5 0) rfl
      (fun h => Json.noConfusion h)⟩⟩

/-- C6 (confirmed): reading after a load from the initial (empty) state
returns the anchor issue message first, then every follow-up comment in
fetch order, and the first entry is a user (human) message whatever the
author or body of the issue — loadMessages builds the anchor as a HumanMessage
unconditionally. -/
theorem memoryLoad_order_first_user (issue : IssueData) (comments : List CommentData) :
    (getMessages issue comments (loadMessages issue comments { messages := [] })).1 =
      anchorMessage issue :: comments.map classifyComment ∧
    (((getMessages issue comments (loadMessages issue comments { messages := [] })).1.head?).map
      BaseMessage.role) = some MsgRole.human := by
  have h : (loadMessages issue comments { messages := [] }).messages =
      anchorMessage issue :: comments.map classifyComment := by
    simp [loadMessages]
  constructor
  · simp [getMessages, h]
  · simp [getMessages, h, anchorMessage, humanMessage]

/-- C7 counterexample: calling loadMessages twice on the same one-entry
external log leaves two copies of the anchor in memory, so the state after
two calls differs from the state after one. -/
theorem loadMessages_not_idempotent_cex :
    loadMessages { title := "t", body := some "b" } []
        (loadMessages { title := "t", body := some "b" } [] { messages := [] }) ≠
      loadMessages { title := "t", body := some "b" } [] { messages := [] } := by
  decide

/-- C7 (corrected): loadMessages is not idempotent — every call appends
the full fetched block (anchor plus classified comments) to whatever is
already in memory, so a second call duplicates the log.  Deduplication
comes only from the laziness of getMessages, which loads only when the
in-memory list is empty: reading twice returns the same history as reading
once. -/
theorem loadMessages_append_semantics (issue : IssueData) (comments : List CommentData)
    (s : MemoryState) :
    (loadMessages issue comments (loadMessages issue comments s)).messages =
      (loadMessages issue comments s).messages ++
        (anchorMessage issue :: comments.map classifyComment) ∧
    ∀ s2 : MemoryState,
      (getMessages issue comments ((getMessages issue comments s2).2)).1 =
        (getMessages issue comments s2).1 := by
  constructor
  · simp [loadMessages]
  · intro s2
    by_cases h : s2.messages.length = 0
    · have hne : ¬ (loadMessages issue comments s2).messages.length = 0 := by
        simp [loadMessages]
      simp [getMessages, h, hne]
    · simp [getMessages, h]

/-- C8 counterexample: when append precedes the first read, the read finds
a nonempty in-memory list, never triggers the load, and returns a history
without the anchor entry of the external log. -/
theorem lazyLoad_skipped_after_append_cex :
    (getMessages { title := "t", body := some "b" } []
        (addMessage (aiMessage "hello") { messages := [] })).1 = [aiMessage "hello"] ∧
    anchorMessage { title := "t", body := some "b" } ∉
      (getMessages { title := "t", body := some "b" } []
        (addMessage (aiMessage "hello") { messages := [] })).1 := by
  decide

/-- C8 (corrected): the first read triggers the load only when the
in-memory list is empty — i.e. only in operation sequences with no prior
append.  A read from the initial state does load and return the external
log; a read on any nonempty state (such as after an append) returns that
state unchanged, without loading. -/
theorem lazyLoad_only_when_empty (issue : IssueData) (comments : List CommentData) :
    ((getMessages issue comments { messages := [] }).1 =
      anchorMessage issue :: comments.map classifyComment) ∧
    (∀ s : MemoryState, s.messages ≠ [] → getMessages issue comments s = (s.messages, s)) := by
  constructor
  · simp [getMessages, loadMessages]
  · intro s h
    simp [getMessages, List.length_eq_zero, h]

/-- Witness for the amended C8 theorem at a concrete appended-first state. -/
theorem lazyLoad_only_when_empty_witness :
    (addMessage (aiMessage "hello") { messages := [] }).messages ≠ [] ∧
    getMessages { title := "t", body := none } []
        (addMessage (aiMessage "hello") { messages := [] }) =
      ((addMessage (aiMessage "hello") { messages := [] }).messages,
        addMessage (aiMessage "hello") { messages := [] }) :=
  ⟨by decide,
    (lazyLoad_only_when_empty { title := "t", body := none } []).2
      (addMessage (aiMessage "hello") { messages := [] }) (by decide)⟩

/-- If the value of some descriptor entry is an unresolvable substitution, the
environment-resolution loop throws a named configuration error. -/
theorem resolveEnvVars_unresolved (procEnv : List (String × String))
    (env : List (String × String)) (key value nm : String)
    (hmem : (key, value) ∈ env) (hpat : matchEnvPattern value = some nm)
    (hunset : lookupEnv procEnv nm = none) :
    ∃ msg, resolveEnvVars procEnv env = Except.error msg := by
  induction env with
  | nil => cases hmem
  | cons kv rest ih =>
    rcases List.mem_cons.mp hmem with heq | hrest
    · subst heq
      exact ⟨"Environment variable " ++ key ++ " could not be resolved",
        by simp [resolveEnvVars, resolveEnvValue, hpat, hunset]⟩
    · cases h1 : resolveEnvValue procEnv kv.2 with
      | none =>
        exact ⟨"Environment variable " ++ kv.1 ++ " could not be resolved",
          by simp [resolveEnvVars, h1]⟩
      | some rv =>
        obtain ⟨m, hm⟩ := ih hrest
        exact ⟨m, by simp [resolveEnvVars, h1, hm]⟩

/-- The initialize loop aborts with an error whenever the registration
list contains a descriptor whose environment cannot be resolved. -/
theorem initServersGo_unresolved (procEnv : List (String × String))
    (establish : String → MCPServerConfig → List (String × String) → List ToolInfo)
    (name : String) (cfg : MCPServerConfig)
    (hcfg : ∃ m, resolveEnvVars procEnv cfg.env = Except.error m) :
    ∀ (servers : List (String × MCPServerConfig)) (st : ToolsState),
      (name, cfg) ∈ servers →
      ∃ msg, initServersGo procEnv establish servers st = Except.error msg := by
  intro servers
  induction servers with
  | nil => intro st h; cases h
  | cons entry rest ih =>
    intro st h
    rcases List.mem_cons.mp h with heq | hrest
    · subst heq
      obtain ⟨m, hm⟩ := hcfg
      exact ⟨m, by simp [initServersGo, connectToServer, hm]⟩
    · cases hc : connectToServer procEnv establish entry.1 entry.2 with
      | error e => exact ⟨e, by simp [initServersGo, hc]⟩
      | ok tl =>
        obtain ⟨msg, hmsg⟩ :=
          ih { clients := st.clients ++ [entry.1], tools := st.tools ++ [(entry.1, tl)] } hrest
        exact ⟨msg, by simp [initServersGo, hc, hmsg]⟩

/-- C5 (confirmed): a descriptor holding an environment value of the
substitution form for an unset variable makes connectToServer throw a
named configuration error whose value does not depend on the
session-establishment oracle — no session is established for that
descriptor, and the unresolved value is neither defaulted nor passed
through — and initialize over any descriptor map containing that
descriptor fails.  (This is the revision of ToolsManager that implements
the substitution; the older revision in the file predates the feature.) -/
theorem toolsOpen_unresolved_env_fails (procEnv : List (String × String))
    (cfg : MCPServerConfig) (key value nm : String)
    (hmem : (key, value) ∈ cfg.env) (hpat : matchEnvPattern value = some nm)
    (hunset : lookupEnv procEnv nm = none) :
    (∃ msg, ∀ (establish : String → MCPServerConfig → List (String × String) → List ToolInfo)
      (serverName : String),
      connectToServer procEnv establish serverName cfg = Except.error msg) ∧
    (∀ (servers : List (String × MCPServerConfig))
        (establish : String → MCPServerConfig → List (String × String) → List ToolInfo)
        (name : String), (name, cfg) ∈ servers →
      ∃ msg2, initServers procEnv establish servers = Except.error msg2) := by
  obtain ⟨m, hm⟩ := resolveEnvVars_unresolved procEnv cfg.env key value nm hmem hpat hunset
  constructor
  · exact ⟨m, fun establish serverName => by simp [connectToServer, hm]⟩
  · intro servers establish name hin
    obtain ⟨msg, hmsg⟩ :=
      initServersGo_unresolved procEnv establish name cfg ⟨m, hm⟩ servers
        { clients := [], tools := [] } hin
    exact ⟨msg, by simpa [initServers] using hmsg⟩

/-- A descriptor whose token value substitutes an unset variable. -/
def demoCfg : MCPServerConfig :=
  { command := "npx", args := ["server"], env := [("API_KEY", "$\x7benv:MISSING_VAR\x7d")] }

/-- A process environment that does not define the missing variable. -/
def demoProcEnv : List (String × String) := [("PATH", "/usr/bin")]

/-- Witness for C5 at the concrete missing-variable descriptor. -/
theorem toolsOpen_unresolved_env_fails_witness :
    ("API_KEY", "$\x7benv:MISSING_VAR\x7d") ∈ demoCfg.env ∧
    matchEnvPattern "$\x7benv:MISSING_VAR\x7d" = some "MISSING_VAR" ∧
    lookupEnv demoProcEnv "MISSING_VAR" = none ∧
    ((∃ msg, ∀ (establish : String → MCPServerConfig → List (String × String) → List ToolInfo)
        (serverName : String),
        connectToServer demoProcEnv establish serverName demoCfg = Except.error msg) ∧
      (∀ (servers : List (String × MCPServerConfig))
          (establish : String → MCPServerConfig → List (String × String) → List ToolInfo)
          (name : String), (name, demoCfg) ∈ servers →
        ∃ msg2, initServers demoProcEnv establish servers = Except.error msg2)) :=
  ⟨by decide, rfl, rfl,
    toolsOpen_unresolved_env_fails demoProcEnv demoCfg "API_KEY" "$\x7benv:MISSING_VAR\x7d"
      "MISSING_VAR" (by decide) rfl rfl⟩

/-- The catalog scan picks the first registered server advertising the
requested name, whatever later servers advertise. -/
theorem callToolGo_first_match (clients : List String) (call : String → String → Json → Json)
    (toolName : String) (args : Json) (s : String) (ts : List ToolInfo)
    (hts : ∃ t ∈ ts, t.name = toolName) (hc : clients.contains s = true) :
    ∀ (pre post : List (String × List ToolInfo)),
      (∀ p ∈ pre, ∀ t ∈ p.2, t.name ≠ toolName) →
      callToolGo clients call toolName args (pre ++ (s, ts) :: post) =
        Except.ok (call s toolName args) := by
  intro pre
  induction pre with
  | nil =>
    intro post _
    obtain ⟨t, ht, hname⟩ := hts
    have hsome : (ts.find? (fun t2 => t2.name == toolName)).isSome :=
      List.find?_isSome.mpr ⟨t, ht, by simp [hname]⟩
    cases hf : ts.find? (fun t2 => t2.name == toolName) with
    | none => simp [hf] at hsome
    | some tool =>
      have hmem : s ∈ clients := by simpa [List.contains, List.elem_iff] using hc
      simp [callToolGo, hf, hc, hmem]
  | cons p pre2 ih =>
    intro post hpre
    have hfp : p.2.find? (fun t2 => t2.name == toolName) = none :=
      List.find?_eq_none.mpr (fun x hx => by
        simp only [beq_iff_eq]
        exact hpre p (by simp) x hx)
    simp only [List.cons_append, callToolGo, hfp]
    exact ih post (fun p2 hp2 => hpre p2 (List.mem_cons_of_mem _ hp2))

/-- When no cached catalog advertises the name, the scan falls through to
the tool-not-found error. -/
theorem callToolGo_not_found (clients : List String) (call : String → String → Json → Json)
    (toolName : String) (args : Json) :
    ∀ ls : List (String × List ToolInfo),
      (∀ p ∈ ls, ∀ t ∈ p.2, t.name ≠ toolName) →
      callToolGo clients call toolName args ls = Except.error ("Tool not found: " ++ toolName) := by
  intro ls
  induction ls with
  | nil => intro _; rfl
  | cons p rest ih =>
    intro h
    have hfp : p.2.find? (fun t2 => t2.name == toolName) = none :=
      List.find?_eq_none.mpr (fun x hx => by
        simp only [beq_iff_eq]
        exact h p (by simp) x hx)
    simp only [callToolGo, hfp]
    exact ih (fun q hq => h q (List.mem_cons_of_mem _ hq))

/-- C9 (confirmed): when several registered servers advertise the same
tool name, callTool deterministically invokes it on the first-registered
one (granted its client exists) instead of raising an ambiguity error; and
for a name advertised by no server it throws the tool-not-found error
rather than returning a null success. -/
theorem callTool_first_match_or_not_found (call : String → String → Json → Json)
    (toolName : String) (args : Json) :
    (∀ (clients : List String) (pre post : List (String × List ToolInfo))
        (s : String) (ts : List ToolInfo),
      (∀ p ∈ pre, ∀ t ∈ p.2, t.name ≠ toolName) →
      (∃ t ∈ ts, t.name = toolName) →
      clients.contains s = true →
      callTool { clients := clients, tools := pre ++ (s, ts) :: post } call toolName args =
        Except.ok (call s toolName args)) ∧
    (∀ st : ToolsState, (∀ p ∈ st.tools, ∀ t ∈ p.2, t.name ≠ toolName) →
      callTool st call toolName args = Except.error ("Tool not found: " ++ toolName)) := by
  constructor
  · intro clients pre post s ts hpre hts hc
    simpa [callTool] using callToolGo_first_match clients call toolName args s ts hts hc pre post hpre
  · intro st h
    simpa [callTool] using callToolGo_not_found st.clients call toolName args st.tools h

/-- A tool advertised by both demo servers. -/
def demoTool : ToolInfo := { name := "read_file", description := some "Read a file" }

/-- A manager state with two registered servers advertising the same tool. -/
def demoToolsState : ToolsState :=
  { clients := ["alpha", "beta"], tools := [("alpha", [demoTool]), ("beta", [demoTool])] }

/-- Witness for C9: with two servers both advertising the demo tool name,
invocation goes to the first-registered server; an unknown name yields the
tool-not-found error. -/
theorem callTool_first_match_or_not_found_witness :
    callTool demoToolsState (fun s n _ => Json.str (s ++ ":" ++ n)) "read_file" Json.null =
      Except.ok ((fun s n _ => Json.str (s ++ ":" ++ n)) "alpha" "read_file" Json.null) ∧
    callTool demoToolsState (fun s n _ => Json.str (s ++ ":" ++ n)) "missing_tool" Json.null =
      Except.error ("Tool not found: " ++ "missing_tool") := by
  constructor
  · exact (callTool_first_match_or_not_found (fun s n _ => Json.str (s ++ ":" ++ n))
      "read_file" Json.null).1 ["alpha", "beta"] [] [("beta", [demoTool])] "alpha" [demoTool]
      (by simp) ⟨demoTool, by simp, rfl⟩ (by decide)
  · exact (callTool_first_match_or_not_found (fun s n _ => Json.str (s ++ ":" ++ n))
      "missing_tool" Json.null).2 demoToolsState (by decide)
